import Mathlib

/-!
Shallow embedding of the API orchestrator core services
(src/services/orchestration-engine.ts, src/services/embedding-engine.ts,
src/services/semantic-graph.ts) together with proofs about the
flow state machine, cosine similarity, embedding generation, graph
construction, clustering and recommendation synthesis.

JavaScript numbers are modelled as real numbers; Date.now() is modelled
as an explicit natural-number argument supplied by the environment;
the JavaScript Map (insertion-ordered, unique keys, set overwrites in
place) is modelled as an association list with matching operations.
-/

/-- Lifecycle status of an orchestration flow
(field status of APIOrchestrationFlow in api-types). -/
inductive FlowStatus
  | pending
  | running
  | completed
  | failed
deriving DecidableEq, Repr

/-- OrchestrationStep record from api-types: id, action tag, target api,
opaque payload (modelled as a string), integer order. -/
structure OrchestrationStep where
  id : String
  action : String
  apiId : String
  payload : String
  order : Int
deriving DecidableEq, Repr

/-- APIOrchestrationFlow record from api-types. -/
structure APIOrchestrationFlow where
  id : String
  name : String
  steps : List OrchestrationStep
  apis : List String
  status : FlowStatus
deriving DecidableEq, Repr

/-- APIConfig record from api-types (credential glue fields kept as plain
strings). -/
structure APIConfig where
  id : String
  name : String
  type : String
  description : String
  endpoints : List String
  capabilities : List String
  apiKey : String
  envKey : String
  configSource : String
deriving DecidableEq, Repr

/-- Input to addOrchestrationStep: an OrchestrationStep without its id
(TypeScript Omit of the id field). -/
structure StepInput where
  action : String
  apiId : String
  payload : String
  order : Int
deriving DecidableEq, Repr

/-- Errors thrown by OrchestrationEngine operations. -/
inductive OrchError
  | flowNotFound (flowId : String)
  | unknownAction (action : String)
deriving DecidableEq, Repr

/-- Map.set on an insertion-ordered map: overwrite in place when the key
exists, otherwise append at the end. -/
def setAssoc {α : Type} (k : String) (v : α) : List (String × α) → List (String × α)
  | [] => [(k, v)]
  | (k', v') :: rest => if k' = k then (k, v) :: rest else (k', v') :: setAssoc k v rest

/-- Map.get: first (unique) entry with the given key. -/
def getAssoc {α : Type} (k : String) : List (String × α) → Option α
  | [] => none
  | (k', v') :: rest => if k' = k then some v' else getAssoc k rest

/-- Map.delete: remove the entry with the given key, if present. -/
def delAssoc {α : Type} (k : String) : List (String × α) → List (String × α)
  | [] => []
  | (k', v') :: rest => if k' = k then rest else (k', v') :: delAssoc k rest

/-- The OrchestrationEngine's activeFlows registry (Map from flow id to
flow). -/
abbrev EngineState := List (String × APIOrchestrationFlow)

/-- OrchestrationEngine.createOrchestrationFlow: allocate a flow whose id
is derived from Date.now(), register it, return it. -/
def createOrchestrationFlow (st : EngineState) (name : String)
    (apis : List APIConfig) (now : Nat) : APIOrchestrationFlow × EngineState :=
  let flow : APIOrchestrationFlow :=
    { id := "flow-" ++ toString now
      name := name
      steps := []
      apis := apis.map (fun api => api.id)
      status := .pending }
  (flow, setAssoc flow.id flow st)

/-- The step-list sort in addOrchestrationStep:
steps.sort((a, b) => a.order - b.order). JavaScript Array.sort is a
stable sort by the comparator, modelled here as stable insertion sort. -/
def sortByOrder (l : List OrchestrationStep) : List OrchestrationStep :=
  l.insertionSort (fun a b => a.order ≤ b.order)

/-- The OrchestrationStep built inside addOrchestrationStep: the input
step together with an id derived from Date.now(). -/
def newStepOf (step : StepInput) (now : Nat) : OrchestrationStep :=
  { id := "step-" ++ toString now
    action := step.action
    apiId := step.apiId
    payload := step.payload
    order := step.order }

/-- OrchestrationEngine.addOrchestrationStep: fail when the flow id is not
registered, otherwise give the step an id derived from Date.now(), append
it, and re-sort the step list by order. -/
def addOrchestrationStep (st : EngineState) (flowId : String)
    (step : StepInput) (now : Nat) : Except OrchError EngineState :=
  match getAssoc flowId st with
  | none => .error (.flowNotFound flowId)
  | some flow =>
    .ok (setAssoc flowId
      { flow with steps := sortByOrder (flow.steps ++ [newStepOf step now]) } st)

/-- OrchestrationEngine.executeStep: dispatch on the action tag; the four
mock handlers always succeed, any other tag throws Unknown action. -/
def executeStep (step : OrchestrationStep) : Except OrchError Unit :=
  if step.action = "authenticate" then .ok ()
  else if step.action = "query" then .ok ()
  else if step.action = "transform" then .ok ()
  else if step.action = "forward" then .ok ()
  else .error (.unknownAction step.action)

/-- The for-loop of executeFlow: run steps in list order, stopping at the
first failure; also returns the list of steps whose handler was invoked. -/
def runStepsTrace : List OrchestrationStep → List OrchestrationStep × Except OrchError Unit
  | [] => ([], .ok ())
  | s :: rest =>
    match executeStep s with
    | .error e => ([s], .error e)
    | .ok _ =>
      let r := runStepsTrace rest
      (s :: r.1, r.2)

/-- Observable outcome of executeFlow: the updated registry, the
result propagated to the caller, the steps whose handlers ran, and the
sequence of status values assigned to the flow during the call. -/
structure ExecOutcome where
  state : EngineState
  result : Except OrchError Unit
  executed : List OrchestrationStep
  statusTrace : List FlowStatus
deriving Repr

/-- OrchestrationEngine.executeFlow: fail when the flow id is not
registered; otherwise set status to running, run the steps in order, and
set status to completed (all steps succeeded) or failed (first failure,
propagated to the caller). -/
def executeFlow (st : EngineState) (flowId : String) : ExecOutcome :=
  match getAssoc flowId st with
  | none => ⟨st, .error (.flowNotFound flowId), [], []⟩
  | some flow =>
    let r := runStepsTrace flow.steps
    match r.2 with
    | .ok _ =>
      ⟨setAssoc flowId { flow with status := .completed } st, .ok (), r.1,
        [.running, .completed]⟩
    | .error e =>
      ⟨setAssoc flowId { flow with status := .failed } st, .error e, r.1,
        [.running, .failed]⟩

/-- OrchestrationEngine.deleteFlow: remove the entry unconditionally. -/
def deleteFlow (st : EngineState) (flowId : String) : EngineState :=
  delAssoc flowId st

/-- OrchestrationEngine.getFlow. -/
def getFlow (st : EngineState) (flowId : String) : Option APIOrchestrationFlow :=
  getAssoc flowId st

/-- Error thrown by EmbeddingEngine.calculateSimilarity on unequal vector
lengths. -/
inductive SimError
  | dimensionMismatch
deriving DecidableEq, Repr

/-- The dot-product accumulation of calculateSimilarity's loop. -/
noncomputable def dotProduct (a b : List ℝ) : ℝ :=
  (a.zip b).foldl (fun acc p => acc + p.1 * p.2) 0

/-- The squared-magnitude accumulation of calculateSimilarity's loop. -/
noncomputable def sumSquares (a : List ℝ) : ℝ :=
  a.foldl (fun acc x => acc + x * x) 0

/-- EmbeddingEngine.calculateSimilarity: throw on unequal lengths, return
0 when either Euclidean norm is zero, otherwise return the cosine
similarity. -/
noncomputable def calculateSimilarity (a b : List ℝ) : Except SimError ℝ :=
  if a.length ≠ b.length then .error .dimensionMismatch
  else
    let dot := dotProduct a b
    let magnitude1 := Real.sqrt (sumSquares a)
    let magnitude2 := Real.sqrt (sumSquares b)
    if magnitude1 = 0 ∨ magnitude2 = 0 then .ok 0
    else .ok (dot / (magnitude1 * magnitude2))

/-- Metadata copied onto an APIEmbedding at generation time. -/
structure EmbeddingMetadata where
  name : String
  type : String
  capabilities : List String
  description : String
deriving DecidableEq, Repr

/-- APIEmbedding record from api-types. -/
structure APIEmbedding where
  apiId : String
  embedding : List ℝ
  metadata : EmbeddingMetadata

/-- SemanticSimilarity record from api-types. -/
structure SemanticSimilarity where
  api1 : String
  api2 : String
  similarity : ℝ
  sharedCapabilities : List String

/-- EmbeddingEngine.createAPIText: the text signature of an API, the
name, type, description and capability tags joined by spaces. -/
def createAPIText (api : APIConfig) : String :=
  api.name ++ " " ++ api.type ++ " " ++ api.description ++ " "
    ++ String.intercalate " " api.capabilities

/-- Dimension of the mock embedding accumulator (new Array(384)). -/
def mockDim : Nat := 384

/-- The accumulation loop of generateMockEmbedding: for every index i
with i < text.length and i < 384, add charCodeAt(i) / 1000 to the
accumulator at position i mod 384. -/
noncomputable def mockAccum (cs : List Char) : List ℝ :=
  (List.range (min cs.length mockDim)).foldl
    (fun acc i =>
      acc.set (i % mockDim) (acc.getD (i % mockDim) 0 + ((cs.getD i ' ').toNat : ℝ) / 1000))
    (List.replicate mockDim 0)

/-- EmbeddingEngine.generateMockEmbedding: fold character codes into the
length-384 accumulator, then divide by the magnitude (or by 1 when the
magnitude is zero). -/
noncomputable def generateMockEmbedding (text : String) : List ℝ :=
  let embedding := mockAccum text.data
  let magnitude := Real.sqrt (sumSquares embedding)
  embedding.map (fun val => val / (if magnitude = 0 then 1 else magnitude))

/-- The loop body of EmbeddingEngine.findSimilarAPIs: walk the cached
embeddings in insertion order, skip the target id, compute the similarity
(propagating a dimension-mismatch throw), and keep records whose
similarity reaches the threshold. -/
noncomputable def similarCandidates (target : APIEmbedding) (targetApiId : String)
    (threshold : ℝ) : List (String × APIEmbedding) → Except SimError (List SemanticSimilarity)
  | [] => .ok []
  | (apiId, emb) :: rest =>
    if apiId = targetApiId then similarCandidates target targetApiId threshold rest
    else
      match calculateSimilarity target.embedding emb.embedding with
      | .error e => .error e
      | .ok sim =>
        match similarCandidates target targetApiId threshold rest with
        | .error e => .error e
        | .ok tail =>
          if threshold ≤ sim then
            .ok ({ api1 := targetApiId
                   api2 := apiId
                   similarity := sim
                   sharedCapabilities := target.metadata.capabilities.filter
                     (fun cap => emb.metadata.capabilities.contains cap) } :: tail)
          else .ok tail

/-- The final sort of findSimilarAPIs:
sort((a, b) => b.similarity - a.similarity), a stable descending sort,
modelled as stable insertion sort. -/
noncomputable def sortBySimilarityDesc (l : List SemanticSimilarity) : List SemanticSimilarity :=
  l.insertionSort (fun a b => b.similarity ≤ a.similarity)

/-- EmbeddingEngine.findSimilarAPIs over the engine's embeddings cache:
empty result when the target id is not cached, otherwise the kept
records sorted by descending similarity. -/
noncomputable def findSimilarAPIs (cache : List (String × APIEmbedding))
    (targetApiId : String) (threshold : ℝ) : Except SimError (List SemanticSimilarity) :=
  match getAssoc targetApiId cache with
  | none => .ok []
  | some targetEmbedding =>
    match similarCandidates targetEmbedding targetApiId threshold cache with
    | .error e => .error e
    | .ok recs => .ok (sortBySimilarityDesc recs)

/-- GraphNode record of semantic-graph (from and to are field names of
GraphEdge in the source; they are spelled fromId and toId here because
from is reserved). -/
structure GraphNode where
  id : String
  name : String
  type : String
  capabilities : List String
  description : String
deriving DecidableEq, Repr

/-- GraphEdge record of semantic-graph. -/
structure GraphEdge where
  fromId : String
  toId : String
  weight : ℝ
  type : String
  sharedCapabilities : List String

/-- Cluster record of semantic-graph. -/
structure Cluster where
  id : String
  name : String
  type : String
  members : List String
  description : String
deriving DecidableEq, Repr

/-- Recommendation record of semantic-graph; the description field of the
high-similarity recommendation omits the formatted percentage
(toFixed display formatting of a float), which no claim concerns. -/
structure Recommendation where
  type : String
  priority : String
  title : String
  description : String
  suggestedAction : String
  affectedAPIs : List String
deriving DecidableEq, Repr

/-- SemanticGraph metadata block. -/
structure GraphMetadata where
  title : String
  description : String
  generatedAt : String
  totalAPIs : Nat
  totalConnections : Nat
deriving DecidableEq, Repr

/-- SemanticGraph aggregate. -/
structure SemanticGraph where
  metadata : GraphMetadata
  nodes : List GraphNode
  edges : List GraphEdge
  clusters : List Cluster
  recommendations : List Recommendation

/-- The ordered pairs (i, j) with i < j visited by the double loop of
createSemanticGraph, in visit order. -/
def orderedPairs {α : Type} : List α → List (α × α)
  | [] => []
  | x :: xs => xs.map (fun y => (x, y)) ++ orderedPairs xs

/-- The fixed allow-list of complementary category pairs in
determineEdgeType. -/
def complementaryPairs : List (String × String) :=
  [("ai", "version-control"), ("ai", "storage"), ("version-control", "ci-cd")]

/-- SemanticGraphGenerator.determineEdgeType. -/
def determineEdgeType (api1 api2 : APIEmbedding) : String :=
  let type1 := api1.metadata.type
  let type2 := api2.metadata.type
  if type1 = type2 then "same-type"
  else if complementaryPairs.any
      (fun p => (type1 == p.1 || type1 == p.2) && (type2 == p.1 || type2 == p.2)) then
    "complementary"
  else "cross-type"

/-- Shared capabilities of two embeddings:
capabilities of the first filtered by membership in the second. -/
def sharedCaps (a b : APIEmbedding) : List String :=
  a.metadata.capabilities.filter (fun cap => b.metadata.capabilities.contains cap)

/-- The similarity computations over a pair list, in visit order; a
dimension-mismatch throw aborts the computation at the offending pair. -/
noncomputable def simTriples :
    List (APIEmbedding × APIEmbedding) → Except SimError (List (APIEmbedding × APIEmbedding × ℝ))
  | [] => .ok []
  | p :: rest =>
    match calculateSimilarity p.1.embedding p.2.embedding with
    | .error e => .error e
    | .ok s =>
      match simTriples rest with
      | .error e => .error e
      | .ok tail => .ok ((p.1, p.2, s) :: tail)

/-- The similarity computations of createSemanticGraph's double loop, in
visit order. -/
noncomputable def pairSimilarities (embeddings : List APIEmbedding) :
    Except SimError (List (APIEmbedding × APIEmbedding × ℝ)) :=
  simTriples (orderedPairs embeddings)

/-- Edge construction of createSemanticGraph: keep a pair only when its
similarity strictly exceeds 0.3. -/
noncomputable def mkEdges (trips : List (APIEmbedding × APIEmbedding × ℝ)) : List GraphEdge :=
  trips.filterMap (fun t =>
    if (0.3 : ℝ) < t.2.2 then
      some { fromId := t.1.apiId
             toId := t.2.1.apiId
             weight := t.2.2
             type := determineEdgeType t.1 t.2.1
             sharedCapabilities := sharedCaps t.1 t.2.1 }
    else none)

/-- SimilarityRecord construction of createSemanticGraph, gated by the
same threshold as the edges. -/
noncomputable def mkSimilarities (trips : List (APIEmbedding × APIEmbedding × ℝ)) :
    List SemanticSimilarity :=
  trips.filterMap (fun t =>
    if (0.3 : ℝ) < t.2.2 then
      some { api1 := t.1.apiId
             api2 := t.2.1.apiId
             similarity := t.2.2
             sharedCapabilities := sharedCaps t.1 t.2.1 }
    else none)

/-- One update of an insertion-ordered grouping Map: create the group
from init on first sight of the key (Map.set appends), otherwise update
the existing group in place. -/
def updateGroup {α β : Type} (upd : β → α → β) (init : β) (k : String) (x : α) :
    List (String × β) → List (String × β)
  | [] => [(k, upd init x)]
  | (k', v) :: rest =>
    if k' = k then (k', upd v x) :: rest else (k', v) :: updateGroup upd init k x rest

/-- The grouping loops of identifyClusters and generateRecommendations:
fold the items in list order, updating the group of every key the item
carries. -/
def groupFold {α β : Type} (upd : β → α → β) (init : β) (keysOf : α → List String)
    (items : List α) : List (String × β) :=
  items.foldl (fun m x => (keysOf x).foldl (fun m k => updateGroup upd init k x m) m) []

/-- String capitalisation used for type-cluster names:
type.charAt(0).toUpperCase() + type.slice(1). -/
def capitalize (s : String) : String :=
  match s.data with
  | [] => ""
  | c :: rest => String.mk (c.toUpper :: rest)

/-- SemanticGraphGenerator.identifyClusters: type-based clusters for
category groups of more than one node, then capability-based clusters for
capability groups of more than one node (the edges argument is unused in
the source as well). -/
def identifyClusters (nodes : List GraphNode) (edges : List GraphEdge) : List Cluster :=
  let _ := edges
  let typeGroups := groupFold (fun l n => l ++ [n]) [] (fun n => [n.type]) nodes
  let typeClusters := typeGroups.filterMap (fun g =>
    if 1 < g.2.length then
      some { id := "cluster-" ++ g.1
             name := capitalize g.1 ++ " APIs"
             type := "type-based"
             members := g.2.map (fun n => n.id)
             description := "APIs of type: " ++ g.1 }
    else none)
  let capabilityGroups := groupFold (fun l n => l ++ [n]) [] (fun n => n.capabilities) nodes
  let capabilityClusters := capabilityGroups.filterMap (fun g =>
    if 1 < g.2.length then
      some { id := "cluster-capability-" ++ g.1
             name := g.1 ++ " Providers"
             type := "capability-based"
             members := g.2.map (fun n => n.id)
             description := "APIs providing " ++ g.1 ++ " capability" }
    else none)
  typeClusters ++ capabilityClusters

/-- Push an api id onto a capability participant list unless already
present. -/
def addUnique (l : List String) (x : String) : List String :=
  if l.contains x then l else l ++ [x]

/-- The high-similarity recommendation for one similarity record. -/
def mkHighRecommendation (sim : SemanticSimilarity) : Recommendation :=
  { type := "high-similarity"
    priority := "high"
    title := "Strong Semantic Match Found"
    description := "APIs " ++ sim.api1 ++ " and " ++ sim.api2
      ++ " have high semantic similarity"
    suggestedAction := "Consider creating a workflow that combines these APIs"
    affectedAPIs := [sim.api1, sim.api2] }

/-- The capability-cluster recommendation for one capability and its
accumulated participant list. -/
def mkCapabilityRecommendation (capability : String) (apis : List String) : Recommendation :=
  { type := "capability-cluster"
    priority := "medium"
    title := "Multiple " ++ capability ++ " Providers"
    description := toString apis.length ++ " APIs provide " ++ capability ++ " capability"
    suggestedAction := "Consider load balancing or failover strategies"
    affectedAPIs := apis }

/-- SemanticGraphGenerator.generateRecommendations: one high-similarity
recommendation per record with similarity above 0.8, in record order,
followed by one capability-cluster recommendation per shared capability
whose accumulated distinct participant list has more than two members, in
first-seen capability order. -/
noncomputable def generateRecommendations (similarities : List SemanticSimilarity) :
    List Recommendation :=
  let highSimilarities := similarities.filter (fun s => decide ((0.8 : ℝ) < s.similarity))
  let highRecs := highSimilarities.map mkHighRecommendation
  let capabilityClusters := groupFold
    (fun l s => addUnique (addUnique l s.api1) s.api2) []
    (fun s => s.sharedCapabilities) similarities
  let capRecs := capabilityClusters.filterMap (fun g =>
    if 2 < g.2.length then some (mkCapabilityRecommendation g.1 g.2) else none)
  highRecs ++ capRecs

/-- SemanticGraphGenerator.createSemanticGraph: nodes copy embedding
metadata, edges and similarity records come from the thresholded pair
loop, clusters and recommendations are derived from them. -/
noncomputable def createSemanticGraph (embeddings : List APIEmbedding)
    (generatedAt : String) : Except SimError SemanticGraph :=
  let nodes : List GraphNode := embeddings.map (fun e =>
    { id := e.apiId
      name := e.metadata.name
      type := e.metadata.type
      capabilities := e.metadata.capabilities
      description := e.metadata.description })
  match pairSimilarities embeddings with
  | .error e => .error e
  | .ok trips =>
    let edges := mkEdges trips
    let sims := mkSimilarities trips
    .ok { metadata :=
            { title := "API Semantic Communication Graph"
              description := "Semantic relationships between discovered APIs"
              generatedAt := generatedAt
              totalAPIs := embeddings.length
              totalConnections := edges.length }
          nodes := nodes
          edges := edges
          clusters := identifyClusters nodes edges
          recommendations := generateRecommendations sims }

/-- The closed set of action tags handled by executeStep's switch. -/
def okActions : List String := ["authenticate", "query", "transform", "forward"]

/-- A three-step flow whose middle step carries an unrecognized action
tag (concrete fixture). -/
def c2Step1 : OrchestrationStep := ⟨"s1", "authenticate", "api-1", "p", 1⟩

/-- An unrecognized-action step (concrete fixture). -/
def c2StepBad : OrchestrationStep := ⟨"s2", "frobnicate", "api-2", "p", 2⟩

/-- A step after the failing one (concrete fixture). -/
def c2Step3 : OrchestrationStep := ⟨"s3", "query", "api-3", "p", 3⟩

/-- Concrete flow fixture with the failing middle step. -/
def c2Flow : APIOrchestrationFlow := ⟨"f", "demo", [c2Step1, c2StepBad, c2Step3], [], .pending⟩

/-- Concrete registry fixture holding c2Flow. -/
def c2State : EngineState := [("f", c2Flow)]

/-- Registry after creating a flow at time 0 (concrete fixture). -/
def c1State1 : EngineState := (createOrchestrationFlow [] "demo" [] 0).2

/-- Registry after executing the empty flow, which completes it
(concrete fixture). -/
def c1State2 : EngineState := (executeFlow c1State1 "flow-0").state

/-- Registry after adding an unknown-action step to the completed flow
(concrete fixture). -/
def c1State3 : EngineState :=
  (addOrchestrationStep c1State2 "flow-0" ⟨"frobnicate", "api-1", "p", 1⟩ 1).toOption.getD []

/-- A registry whose only flow is already in the terminal failed status
(concrete fixture). -/
def c1wState : EngineState := [("g", ⟨"g", "w", [], [], .failed⟩)]

/-- An empty flow registered under id f (concrete fixture). -/
def c8State : EngineState := [("f", ⟨"f", "demo", [], [], .pending⟩)]

/-- First step input, order 5 (concrete fixture). -/
def c8s1 : StepInput := ⟨"query", "api-1", "p", 5⟩

/-- Second step input, strictly smaller order 2 (concrete fixture). -/
def c8s2 : StepInput := ⟨"forward", "api-2", "p", 2⟩

/-- Registry after adding c8s1 (concrete fixture). -/
def c8State1 : EngineState := (addOrchestrationStep c8State "f" c8s1 1).toOption.getD []

/-- Registry after adding c8s2 (concrete fixture). -/
def c8State2 : EngineState := (addOrchestrationStep c8State1 "f" c8s2 2).toOption.getD []

instance : IsTotal OrchestrationStep (fun a b => a.order ≤ b.order) :=
  ⟨fun a b => le_total a.order b.order⟩

instance : IsTrans OrchestrationStep (fun a b => a.order ≤ b.order) :=
  ⟨fun _ _ _ h1 h2 => le_trans h1 h2⟩

instance : IsTotal SemanticSimilarity (fun a b => b.similarity ≤ a.similarity) :=
  ⟨fun a b => le_total b.similarity a.similarity⟩

instance : IsTrans SemanticSimilarity (fun a b => b.similarity ≤ a.similarity) :=
  ⟨fun _ _ _ h1 h2 => le_trans h2 h1⟩

/-- A 384-character name, exactly filling the mock embedding
accumulator (concrete fixture). -/
def c4Name : String := String.mk (List.replicate 384 'a')

/-- Descriptor whose signature starts with the 384-character name; its
type tag sits beyond index 383 of the signature (concrete fixture). -/
def c4Api1 : APIConfig :=
  { id := "x1", name := c4Name, type := "ai", description := "", endpoints := []
    capabilities := [], apiKey := "", envKey := "", configSource := "" }

/-- Same descriptor with a different type tag (concrete fixture). -/
def c4Api2 : APIConfig :=
  { id := "x2", name := c4Name, type := "version-control", description := "", endpoints := []
    capabilities := [], apiKey := "", envKey := "", configSource := "" }

/-- Append a key to an ordered key list unless already present (the
first-seen iteration order of a JavaScript Map's keys). -/
def addKey (ks : List String) (k : String) : List String :=
  if k ∈ ks then ks else ks ++ [k]

/-- First-seen order of all keys carried by the items: the iteration
order of the grouping Map built by groupFold. -/
def keyOrder {α : Type} (keysOf : α → List String) (items : List α) : List String :=
  items.foldl (fun ks x => (keysOf x).foldl addKey ks) []

/-- The distinct participant ids accumulated for one capability by
generateRecommendations, in first-participation order. -/
def participantsOf (cap : String) (sims : List SemanticSimilarity) : List String :=
  (sims.filter (fun s => decide (cap ∈ s.sharedCapabilities))).foldl
    (fun l s => addUnique (addUnique l s.api1) s.api2) []

/-- Two ai-type nodes sharing both capabilities (concrete fixture). -/
def c9n1 : GraphNode := ⟨"a", "A", "ai", ["x", "y"], ""⟩

/-- Second ai-type node (concrete fixture). -/
def c9n2 : GraphNode := ⟨"b", "B", "ai", ["x", "y"], ""⟩

/-- A similarity record above the high threshold (concrete fixture). -/
noncomputable def c7s1 : SemanticSimilarity := ⟨"a", "b", 1, ["x"]⟩

/-- A second record sharing capability x (concrete fixture). -/
noncomputable def c7s2 : SemanticSimilarity := ⟨"a", "c", 0, ["x"]⟩

/-- Embedding fixture a with unit vector. -/
noncomputable def c5e1 : APIEmbedding := ⟨"a", [1], ⟨"A", "ai", [], ""⟩⟩

/-- Embedding fixture b with the same unit vector. -/
noncomputable def c5e2 : APIEmbedding := ⟨"b", [1], ⟨"B", "ai", [], ""⟩⟩

/-- The graph the builder produces on the two fixtures: one same-type
edge of weight 1, one type cluster, one high-similarity
recommendation. -/
noncomputable def c5g : SemanticGraph :=
  { metadata :=
      { title := "API Semantic Communication Graph"
        description := "Semantic relationships between discovered APIs"
        generatedAt := "t"
        totalAPIs := 2
        totalConnections := 1 }
    nodes := [⟨"a", "A", "ai", [], ""⟩, ⟨"b", "B", "ai", [], ""⟩]
    edges := [⟨"a", "b", 1, "same-type", []⟩]
    clusters := [⟨"cluster-ai", "Ai APIs", "type-based", ["a", "b"], "APIs of type: ai"⟩]
    recommendations := [⟨"high-similarity", "high", "Strong Semantic Match Found",
      "APIs a and b have high semantic similarity",
      "Consider creating a workflow that combines these APIs", ["a", "b"]⟩] }

/-- Cached target embedding fixture. -/
noncomputable def c10t : APIEmbedding := ⟨"t", [1], ⟨"T", "ai", ["x", "y"], ""⟩⟩

/-- Second cached embedding fixture sharing capability y. -/
noncomputable def c10u : APIEmbedding := ⟨"u", [1], ⟨"U", "ai", ["y", "z"], ""⟩⟩

/-- Embeddings cache fixture in insertion order. -/
noncomputable def c10cache : List (String × APIEmbedding) := [("t", c10t), ("u", c10u)]

/-- Registry with an empty flow for the same-timestamp step-id trace
(concrete fixture). -/
def c8cState : EngineState := [("f", ⟨"f", "demo", [], [], .pending⟩)]

/-- Registry after adding a first step at time 5 (concrete fixture). -/
def c8cState1 : EngineState :=
  (addOrchestrationStep c8cState "f" ⟨"query", "api-1", "p", 1⟩ 5).toOption.getD []

/-- Registry after adding a second step in the same millisecond
(concrete fixture). -/
def c8cState2 : EngineState :=
  (addOrchestrationStep c8cState1 "f" ⟨"forward", "api-2", "p", 2⟩ 5).toOption.getD []

/-- Looking up the key just written returns the written value. -/
theorem getAssoc_setAssoc_self {α : Type} (k : String) (v : α) (l : List (String × α)) :
    getAssoc k (setAssoc k v l) = some v := by
  induction l with
  | nil => simp [setAssoc, getAssoc]
  | cons p rest ih =>
    obtain ⟨k', v'⟩ := p
    by_cases h : k' = k <;> simp [setAssoc, getAssoc, h, ih]

/-- Map.set appends when the key is absent. -/
theorem setAssoc_of_not_mem {α : Type} (k : String) (v : α) (l : List (String × α))
    (h : ∀ p ∈ l, p.1 ≠ k) : setAssoc k v l = l ++ [(k, v)] := by
  induction l with
  | nil => simp [setAssoc]
  | cons p rest ih =>
    obtain ⟨k', v'⟩ := p
    have hk : k' ≠ k := h (k', v') (by simp)
    simp [setAssoc, hk, ih fun q hq => h q (by simp [hq])]

/-- The step dispatch succeeds exactly on the four recognized action
tags. -/
theorem executeStep_ok_iff (s : OrchestrationStep) :
    executeStep s = .ok () ↔ s.action ∈ okActions := by
  unfold executeStep okActions
  split_ifs with h1 h2 h3 h4 <;> simp_all

/-- The step dispatch on an unrecognized tag throws Unknown action. -/
theorem executeStep_unknown (s : OrchestrationStep) (h : s.action ∉ okActions) :
    executeStep s = .error (.unknownAction s.action) := by
  unfold executeStep
  unfold okActions at h
  simp only [List.mem_cons, List.not_mem_nil, or_false] at h
  push_neg at h
  obtain ⟨h1, h2, h3, h4⟩ := h
  simp [h1, h2, h3, h4]

/-- A run over all-recognized steps invokes every step in order and
succeeds. -/
theorem runStepsTrace_all_ok (steps : List OrchestrationStep)
    (h : ∀ s ∈ steps, s.action ∈ okActions) :
    runStepsTrace steps = (steps, .ok ()) := by
  induction steps with
  | nil => rfl
  | cons s rest ih =>
    have hs : executeStep s = .ok () := (executeStep_ok_iff s).mpr (h s (by simp))
    simp [runStepsTrace, hs, ih fun t ht => h t (by simp [ht])]

/-- A run stops at the first unrecognized step: the steps before it all
run, the failing step runs and its error is returned, nothing after it
runs. -/
theorem runStepsTrace_first_fail (pre : List OrchestrationStep) (bad : OrchestrationStep)
    (post : List OrchestrationStep) (hpre : ∀ s ∈ pre, s.action ∈ okActions)
    (hbad : bad.action ∉ okActions) :
    runStepsTrace (pre ++ bad :: post) = (pre ++ [bad], .error (.unknownAction bad.action)) := by
  induction pre with
  | nil => simp [runStepsTrace, executeStep_unknown bad hbad]
  | cons s rest ih =>
    have hs : executeStep s = .ok () := (executeStep_ok_iff s).mpr (hpre s (by simp))
    simp [runStepsTrace, hs, ih fun t ht => hpre t (by simp [ht])]

/-- Sorting the step list leaves the sublist of steps sharing any one
order value unchanged: the sort is stable. -/
theorem sortByOrder_filter_eq (l : List OrchestrationStep) (k : Int) :
    (sortByOrder l).filter (fun s => s.order == k) = l.filter (fun s => s.order == k) := by
  have hpw : (l.filter (fun s => s.order == k)).Pairwise (fun a b => a.order ≤ b.order) := by
    apply List.pairwise_of_forall_mem_list
    intro a ha b hb
    have ha' := (List.mem_filter.mp ha).2
    have hb' := (List.mem_filter.mp hb).2
    simp only [beq_iff_eq] at ha' hb'
    rw [ha', hb']
  have hsub : (l.filter (fun s => s.order == k)).Sublist (sortByOrder l) :=
    List.sublist_insertionSort hpw (List.filter_sublist l)
  have hsub2 : (l.filter (fun s => s.order == k)).Sublist
      ((sortByOrder l).filter (fun s => s.order == k)) := by
    have h2 := List.Sublist.filter (fun s => s.order == k) hsub
    simpa [List.filter_filter] using h2
  have hperm : ((sortByOrder l).filter (fun s => s.order == k)).Perm
      (l.filter (fun s => s.order == k)) :=
    (List.perm_insertionSort _ l).filter _
  exact (hsub2.eq_of_length hperm.length_eq.symm).symm

/-- Sorting a singleton step list is the identity. -/
theorem sortByOrder_singleton (a : OrchestrationStep) : sortByOrder [a] = [a] := by
  simp [sortByOrder, List.insertionSort, List.orderedInsert]

/-- Sorting a two-step list whose second step has strictly smaller order
swaps them. -/
theorem sortByOrder_pair (a b : OrchestrationStep) (h : b.order < a.order) :
    sortByOrder [a, b] = [b, a] := by
  have hn : ¬ (a.order ≤ b.order) := not_le.mpr h
  simp [sortByOrder, List.insertionSort, List.orderedInsert, hn]

/-- C8 amended: addStep fails with FlowNotFound exactly when the flow id
is unregistered; otherwise it assigns the step the timestamp-derived id
step- followed by the Date.now() value — fresh among the flow's steps
only when no earlier step was added in the same millisecond — appends
it and re-sorts the step list by order ascending with a stable sort
(sorted, a permutation of the appended list, and order-preserving on
every equal-order class); adding a step and then a second step of
strictly smaller order leaves the smaller-order step first on
retrieval. -/
theorem addStep_sorted_stable (st : EngineState) (flowId : String) (step : StepInput) (now : Nat) :
    (getFlow st flowId = none →
      addOrchestrationStep st flowId step now = .error (.flowNotFound flowId))
    ∧ (∀ flow, getFlow st flowId = some flow →
        addOrchestrationStep st flowId step now
          = .ok (setAssoc flowId
              { flow with steps := sortByOrder (flow.steps ++ [newStepOf step now]) } st)
        ∧ getFlow (setAssoc flowId
              { flow with steps := sortByOrder (flow.steps ++ [newStepOf step now]) } st) flowId
            = some { flow with steps := sortByOrder (flow.steps ++ [newStepOf step now]) }
        ∧ (sortByOrder (flow.steps ++ [newStepOf step now])).Sorted
            (fun a b => a.order ≤ b.order)
        ∧ (sortByOrder (flow.steps ++ [newStepOf step now])).Perm
            (flow.steps ++ [newStepOf step now])
        ∧ (∀ k : Int,
            (sortByOrder (flow.steps ++ [newStepOf step now])).filter (fun s => s.order == k)
              = (flow.steps ++ [newStepOf step now]).filter (fun s => s.order == k))
        ∧ (newStepOf step now).id = "step-" ++ toString now
        ∧ ((∀ s ∈ flow.steps, s.id ≠ "step-" ++ toString now) →
            ∀ s ∈ flow.steps, s.id ≠ (newStepOf step now).id))
    ∧ (∀ (s1 s2 : StepInput) (n1 n2 : Nat) (flow : APIOrchestrationFlow),
        getFlow st flowId = some flow → flow.steps = [] → s2.order < s1.order →
        ∀ st1 st2 : EngineState, addOrchestrationStep st flowId s1 n1 = .ok st1 →
          addOrchestrationStep st1 flowId s2 n2 = .ok st2 →
          (getFlow st2 flowId).map APIOrchestrationFlow.steps
            = some [newStepOf s2 n2, newStepOf s1 n1]) := by
  refine ⟨fun h => ?_, fun flow hflow => ?_, ?_⟩
  · unfold getFlow at h
    unfold addOrchestrationStep
    rw [h]
  · unfold getFlow at hflow
    unfold addOrchestrationStep
    rw [hflow]
    exact ⟨rfl, getAssoc_setAssoc_self _ _ _, List.sorted_insertionSort _ _,
      List.perm_insertionSort _ _, fun k => sortByOrder_filter_eq _ k, rfl,
      fun h => h⟩
  · intro s1 s2 n1 n2 flow hflow hempty hord st1 st2 h1 h2
    unfold getFlow at hflow
    unfold addOrchestrationStep at h1
    rw [hflow] at h1
    simp only [Except.ok.injEq] at h1
    have hst1 : getAssoc flowId st1
        = some { flow with steps := sortByOrder (flow.steps ++ [newStepOf s1 n1]) } := by
      rw [← h1]
      exact getAssoc_setAssoc_self _ _ _
    unfold addOrchestrationStep at h2
    rw [hst1] at h2
    simp only [Except.ok.injEq] at h2
    have hsteps1 : sortByOrder (flow.steps ++ [newStepOf s1 n1]) = [newStepOf s1 n1] := by
      rw [hempty]
      exact sortByOrder_singleton _
    have hst2 : getAssoc flowId st2
        = some { flow with steps := sortByOrder ([newStepOf s1 n1] ++ [newStepOf s2 n2]) } := by
      rw [← h2, hsteps1]
      exact getAssoc_setAssoc_self _ _ _
    have hpair : sortByOrder [newStepOf s1 n1, newStepOf s2 n2]
        = [newStepOf s2 n2, newStepOf s1 n1] :=
      sortByOrder_pair _ _ hord
    unfold getFlow
    rw [hst2]
    simp [hpair]

/-- Counterexample to C8's freshness clause: two addStep calls on one
flow within the same Date.now() millisecond give both steps the id
step-5 — the second step's id is not fresh, duplicating the id of the
step added earlier. -/
theorem addStep_fresh_id_cex :
    (getFlow c8cState2 "f").map (fun fl => fl.steps.map OrchestrationStep.id)
      = some ["step-5", "step-5"]
    ∧ (getFlow c8cState2 "f").map (fun fl => fl.steps.map OrchestrationStep.action)
      = some ["query", "forward"] := by decide

/-- Witness for addStep_sorted_stable: on a concrete empty flow, adding a
step of order 5 and then a step of order 2 leaves the order-2 step first
on retrieval. -/
theorem addStep_sorted_stable_witness :
    (getFlow c8State2 "f").map APIOrchestrationFlow.steps
      = some [newStepOf c8s2 2, newStepOf c8s1 1] :=
  (addStep_sorted_stable c8State "f" c8s1 1).2.2 c8s1 c8s2 1 2
    ⟨"f", "demo", [], [], .pending⟩ (by decide) (by decide) (by decide)
    c8State1 c8State2 rfl rfl

/-- C2: executeFlow fails with FlowNotFound when the flow id is not
registered (leaving the registry untouched and running nothing);
dispatch of a tag outside the four recognized actions fails the step with
UnknownAction; on a registered flow all-recognized steps run in list
order and the status ends completed, while a first unrecognized step
fails the flow, propagates the error, and no later step is ever
invoked. -/
theorem executeFlow_fail_fast (st : EngineState) (flowId : String) :
    (getFlow st flowId = none →
      executeFlow st flowId = ⟨st, .error (.flowNotFound flowId), [], []⟩)
    ∧ (∀ s : OrchestrationStep, s.action ∉ okActions →
        executeStep s = .error (.unknownAction s.action))
    ∧ (∀ flow : APIOrchestrationFlow, getFlow st flowId = some flow →
        ((∀ s ∈ flow.steps, s.action ∈ okActions) →
          executeFlow st flowId =
            ⟨setAssoc flowId { flow with status := .completed } st, .ok (), flow.steps,
              [.running, .completed]⟩
          ∧ getFlow (executeFlow st flowId).state flowId
              = some { flow with status := .completed })
        ∧ (∀ (pre : List OrchestrationStep) (bad : OrchestrationStep)
            (post : List OrchestrationStep),
            flow.steps = pre ++ bad :: post →
            (∀ s ∈ pre, s.action ∈ okActions) → bad.action ∉ okActions →
            executeFlow st flowId =
              ⟨setAssoc flowId { flow with status := .failed } st,
                .error (.unknownAction bad.action), pre ++ [bad], [.running, .failed]⟩
            ∧ getFlow (executeFlow st flowId).state flowId
                = some { flow with status := .failed })) := by
  refine ⟨fun h => ?_, executeStep_unknown, fun flow hflow => ⟨fun hok => ?_, ?_⟩⟩
  · unfold getFlow at h
    unfold executeFlow
    rw [h]
  · unfold getFlow at hflow
    have hrun := runStepsTrace_all_ok flow.steps hok
    have hexec : executeFlow st flowId =
        ⟨setAssoc flowId { flow with status := .completed } st, .ok (), flow.steps,
          [.running, .completed]⟩ := by
      unfold executeFlow
      rw [hflow]
      simp [hrun]
    refine ⟨hexec, ?_⟩
    rw [hexec]
    exact getAssoc_setAssoc_self _ _ _
  · intro pre bad post hsplit hpre hbad
    unfold getFlow at hflow
    have hrun : runStepsTrace flow.steps = (pre ++ [bad], .error (.unknownAction bad.action)) := by
      rw [hsplit]
      exact runStepsTrace_first_fail pre bad post hpre hbad
    have hexec : executeFlow st flowId =
        ⟨setAssoc flowId { flow with status := .failed } st,
          .error (.unknownAction bad.action), pre ++ [bad], [.running, .failed]⟩ := by
      unfold executeFlow
      rw [hflow]
      simp [hrun]
    refine ⟨hexec, ?_⟩
    rw [hexec]
    exact getAssoc_setAssoc_self _ _ _

/-- Witness for executeFlow_fail_fast: on a concrete three-step flow
whose middle step carries the unrecognized tag frobnicate, execution
runs only the first two steps, sets the flow failed, and propagates
UnknownAction. -/
theorem executeFlow_fail_fast_witness :
    executeFlow c2State "f" =
      ⟨setAssoc "f" { c2Flow with status := .failed } c2State,
        .error (.unknownAction "frobnicate"), [c2Step1, c2StepBad], [.running, .failed]⟩ :=
  (((executeFlow_fail_fast c2State "f").2.2 c2Flow (by decide)).2
    [c2Step1] c2StepBad [c2Step3] rfl (by decide) (by decide)).1

/-- Counterexample to C1: after a concrete public-API trace the flow
sits in the terminal status completed, yet executeFlow moves it through
running to failed — the engine never guards terminal states. -/
theorem executeFlow_terminal_cex :
    (getFlow c1State3 "flow-0").map APIOrchestrationFlow.status = some .completed
    ∧ (executeFlow c1State3 "flow-0").statusTrace = [.running, .failed]
    ∧ (getFlow (executeFlow c1State3 "flow-0").state "flow-0").map APIOrchestrationFlow.status
        = some .failed := by decide

/-- C1 amended: every flow is created in status pending, and executeFlow
on any registered flow — whatever its current status, terminal ones
included — assigns running and then completed or failed; those four
values are the only statuses the engine ever assigns, but terminal
statuses are not sticky. -/
theorem flow_lifecycle_amended :
    (∀ (st : EngineState) (name : String) (apis : List APIConfig) (now : Nat),
      (createOrchestrationFlow st name apis now).1.status = .pending)
    ∧ (∀ (st : EngineState) (flowId : String) (flow : APIOrchestrationFlow),
        getFlow st flowId = some flow →
        ((executeFlow st flowId).statusTrace = [.running, .completed]
          ∨ (executeFlow st flowId).statusTrace = [.running, .failed])
        ∧ ∃ f' : APIOrchestrationFlow,
            getFlow (executeFlow st flowId).state flowId = some f'
            ∧ (f'.status = .completed ∨ f'.status = .failed)) := by
  constructor
  · intro st name apis now
    rfl
  · intro st flowId flow hflow
    unfold getFlow at hflow ⊢
    unfold executeFlow
    rw [hflow]
    cases hr : (runStepsTrace flow.steps).2 with
    | ok v =>
      simp only [hr]
      exact ⟨Or.inl trivial, ⟨_, getAssoc_setAssoc_self _ _ _, Or.inl rfl⟩⟩
    | error e =>
      simp only [hr]
      exact ⟨Or.inr trivial, ⟨_, getAssoc_setAssoc_self _ _ _, Or.inr rfl⟩⟩

/-- Witness for flow_lifecycle_amended: executing a concrete flow whose
status is already failed re-runs it and completes it. -/
theorem flow_lifecycle_amended_witness :
    ((executeFlow c1wState "g").statusTrace = [.running, .completed]
      ∨ (executeFlow c1wState "g").statusTrace = [.running, .failed])
    ∧ ∃ f' : APIOrchestrationFlow,
        getFlow (executeFlow c1wState "g").state "g" = some f'
        ∧ (f'.status = .completed ∨ f'.status = .failed) :=
  flow_lifecycle_amended.2 c1wState "g" ⟨"g", "w", [], [], .failed⟩ (by decide)

/-- Counterexample to C6: two flows created at the same Date.now() value
receive the same id — the second flow's id equals the id of the distinct
flow created earlier, and the registry keeps a single entry (the first
registration is overwritten). -/
theorem createFlow_unique_id_cex :
    ((createOrchestrationFlow (createOrchestrationFlow [] "first" [] 7).2 "second" [] 7).1.id
        = (createOrchestrationFlow [] "first" [] 7).1.id)
    ∧ (createOrchestrationFlow (createOrchestrationFlow [] "first" [] 7).2 "second" [] 7).1
        ≠ (createOrchestrationFlow [] "first" [] 7).1
    ∧ (createOrchestrationFlow (createOrchestrationFlow [] "first" [] 7).2 "second" [] 7).2.length
        = 1 := by decide

/-- C6 amended: createFlow returns a registered flow in status pending
with an empty step list, api ids copied from the input (an empty list is
accepted), and id equal to flow- followed by the Date.now() value; that
id is fresh — and the rest of the registry untouched — exactly when no
already-registered entry carries the same timestamp-derived key. -/
theorem createFlow_amended (st : EngineState) (name : String)
    (apis : List APIConfig) (now : Nat) :
    (createOrchestrationFlow st name apis now).1.status = .pending
    ∧ (createOrchestrationFlow st name apis now).1.steps = []
    ∧ (createOrchestrationFlow st name apis now).1.apis = apis.map APIConfig.id
    ∧ (createOrchestrationFlow st name apis now).1.id = "flow-" ++ toString now
    ∧ getFlow (createOrchestrationFlow st name apis now).2
        (createOrchestrationFlow st name apis now).1.id
        = some (createOrchestrationFlow st name apis now).1
    ∧ ((∀ p ∈ st, p.1 ≠ "flow-" ++ toString now) →
        (createOrchestrationFlow st name apis now).2
          = st ++ [("flow-" ++ toString now, (createOrchestrationFlow st name apis now).1)]) :=
  ⟨rfl, rfl, rfl, rfl, getAssoc_setAssoc_self _ _ _,
    fun h => setAssoc_of_not_mem _ _ _ h⟩

/-- Witness for createFlow_amended: creating a flow at time 42 in the
empty registry registers it under the fresh id flow-42. -/
theorem createFlow_amended_witness :
    (createOrchestrationFlow [] "fresh" [] 42).2
      = [] ++ [("flow-42", (createOrchestrationFlow [] "fresh" [] 42).1)] :=
  (createFlow_amended [] "fresh" [] 42).2.2.2.2.2 (by decide)

/-- C3: calculateSimilarity throws DimensionMismatch exactly on
unequal-length inputs; on equal lengths it returns exactly 0 when either
Euclidean norm is zero and the dot product divided by the product of the
Euclidean norms otherwise (a pure function of its two arguments). -/
theorem calculateSimilarity_spec (a b : List ℝ) :
    (calculateSimilarity a b = .error .dimensionMismatch ↔ a.length ≠ b.length)
    ∧ (a.length = b.length →
        ((Real.sqrt (sumSquares a) = 0 ∨ Real.sqrt (sumSquares b) = 0) →
          calculateSimilarity a b = .ok 0)
        ∧ (¬(Real.sqrt (sumSquares a) = 0 ∨ Real.sqrt (sumSquares b) = 0) →
          calculateSimilarity a b
            = .ok (dotProduct a b
                / (Real.sqrt (sumSquares a) * Real.sqrt (sumSquares b))))) := by
  simp only [calculateSimilarity]
  split_ifs with h1 h2
  · exact ⟨⟨fun _ => h1, fun _ => rfl⟩, fun hlen => absurd hlen h1⟩
  · refine ⟨⟨fun h => absurd h (by simp), fun hne => absurd hne h1⟩, ?_⟩
    exact fun _ => ⟨fun _ => rfl, fun hnz => absurd h2 hnz⟩
  · refine ⟨⟨fun h => absurd h (by simp), fun hne => absurd hne h1⟩, ?_⟩
    exact fun _ => ⟨fun hz => absurd hz h2, fun _ => rfl⟩

/-- Witness for calculateSimilarity_spec: similarity of the zero vector
with a vector of the same length is exactly 0. -/
theorem calculateSimilarity_spec_witness :
    calculateSimilarity [(0 : ℝ), 0] [(3 : ℝ), 4] = .ok 0 := by
  have h0 : Real.sqrt (sumSquares [(0 : ℝ), 0]) = 0 := by
    have hz : sumSquares [(0 : ℝ), 0] = 0 := by norm_num [sumSquares]
    rw [hz, Real.sqrt_zero]
  exact ((calculateSimilarity_spec [0, 0] [3, 4]).2 rfl).1 (Or.inl h0)

/-- The accumulator loop reads only the first 384 characters: two
character lists of length at least 384 agreeing on their first 384
characters produce the same accumulator. -/
theorem mockAccum_eq_of_take_eq (cs ds : List Char) (hc : mockDim ≤ cs.length)
    (hd : mockDim ≤ ds.length) (h : cs.take mockDim = ds.take mockDim) :
    mockAccum cs = mockAccum ds := by
  unfold mockAccum
  have h1 : min cs.length mockDim = mockDim := by omega
  have h2 : min ds.length mockDim = mockDim := by omega
  rw [h1, h2]
  apply List.foldl_ext
  intro acc i hi
  have hi' : i < mockDim := List.mem_range.mp hi
  have e1 : cs.getD i ' ' = (cs.take mockDim).getD i ' ' := by
    simp [List.getD_eq_getElem?_getD, List.getElem?_take, hi']
  have e2 : ds.getD i ' ' = (ds.take mockDim).getD i ' ' := by
    simp [List.getD_eq_getElem?_getD, List.getElem?_take, hi']
  rw [e1, e2, h]

/-- Texts of length at least 384 agreeing on their first 384 characters
produce identical mock embeddings. -/
theorem generateMockEmbedding_eq_of_take_eq (s t : String) (hs : mockDim ≤ s.data.length)
    (ht : mockDim ≤ t.data.length) (h : s.data.take mockDim = t.data.take mockDim) :
    generateMockEmbedding s = generateMockEmbedding t := by
  unfold generateMockEmbedding
  rw [mockAccum_eq_of_take_eq s.data t.data hs ht h]

set_option maxRecDepth 100000 in
/-- C4 failing input: two descriptors sharing a 384-character name but
differing in type receive identical fallback embeddings — every
signature character at index 384 or beyond (here the whole type tag) is
ignored by the accumulation loop, though the signature is longer than
384 characters. -/
theorem generateMockEmbedding_truncation :
    generateMockEmbedding (createAPIText c4Api1) = generateMockEmbedding (createAPIText c4Api2)
    ∧ c4Api1.type ≠ c4Api2.type
    ∧ mockDim < (createAPIText c4Api1).data.length :=
  ⟨generateMockEmbedding_eq_of_take_eq _ _ (by decide) (by decide) (by decide),
    by decide, by decide⟩

/-- Membership in addKey. -/
theorem mem_addKey (ks : List String) (k a : String) :
    a ∈ addKey ks k ↔ a ∈ ks ∨ a = k := by
  unfold addKey
  split_ifs with h
  · constructor
    · exact fun ha => Or.inl ha
    · rintro (ha | rfl)
      · exact ha
      · exact h
  · simp

/-- addKey preserves distinctness of the key list. -/
theorem addKey_nodup (ks : List String) (k : String) (h : ks.Nodup) :
    (addKey ks k).Nodup := by
  unfold addKey
  split_ifs with hk
  · exact h
  · simpa [List.nodup_append, hk] using h

/-- Membership after folding addKey over a key list. -/
theorem mem_foldl_addKey (l : List String) (ks : List String) (a : String) :
    a ∈ l.foldl addKey ks ↔ a ∈ ks ∨ a ∈ l := by
  induction l generalizing ks with
  | nil => simp
  | cons k l ih =>
    rw [List.foldl_cons, ih, mem_addKey]
    simp [or_assoc]

/-- Folding addKey preserves distinctness. -/
theorem foldl_addKey_nodup (l : List String) (ks : List String) (h : ks.Nodup) :
    (l.foldl addKey ks).Nodup := by
  induction l generalizing ks with
  | nil => exact h
  | cons k l ih => exact ih _ (addKey_nodup _ _ h)

/-- The key order of items extended by one more item. -/
theorem keyOrder_append {α : Type} (keysOf : α → List String) (items : List α) (x : α) :
    keyOrder keysOf (items ++ [x]) = (keysOf x).foldl addKey (keyOrder keysOf items) := by
  unfold keyOrder
  rw [List.foldl_append, List.foldl_cons, List.foldl_nil]

/-- A key appears in the key order exactly when some item carries it. -/
theorem mem_keyOrder {α : Type} (keysOf : α → List String) (items : List α) (k : String) :
    k ∈ keyOrder keysOf items ↔ ∃ y ∈ items, k ∈ keysOf y := by
  suffices h : ∀ ks : List String,
      k ∈ items.foldl (fun ks x => (keysOf x).foldl addKey ks) ks
        ↔ k ∈ ks ∨ ∃ y ∈ items, k ∈ keysOf y by
    simpa [keyOrder] using h []
  induction items with
  | nil => simp
  | cons x items ih =>
    intro ks
    rw [List.foldl_cons, ih, mem_foldl_addKey]
    simp [or_assoc]

/-- The key order is duplicate-free. -/
theorem keyOrder_nodup {α : Type} (keysOf : α → List String) (items : List α) :
    (keyOrder keysOf items).Nodup := by
  suffices h : ∀ ks : List String, ks.Nodup →
      (items.foldl (fun ks x => (keysOf x).foldl addKey ks) ks).Nodup by
    exact h [] List.nodup_nil
  induction items with
  | nil => exact fun ks h => h
  | cons x items ih => exact fun ks h => ih _ (foldl_addKey_nodup _ _ h)

/-- One updateGroup call on a grouping Map in canonical form: the key
order gains the key (if new) and only that key's value changes. -/
theorem updateGroup_map {α β : Type} (upd : β → α → β) (init : β) (x : α) (k0 : String)
    (ord : List String) (f : String → β) (hord : ord.Nodup) :
    updateGroup upd init k0 x (ord.map (fun k => (k, f k)))
      = (addKey ord k0).map
          (fun k => (k, if k = k0 then (if k0 ∈ ord then upd (f k0) x else upd init x)
            else f k)) := by
  induction ord with
  | nil => simp [updateGroup, addKey]
  | cons k1 ord' ih =>
    rw [List.map_cons]
    have hnd' : ord'.Nodup := (List.nodup_cons.mp hord).2
    have hk1 : k1 ∉ ord' := (List.nodup_cons.mp hord).1
    by_cases h : k1 = k0
    · subst h
      rw [show updateGroup upd init k1 x ((k1, f k1) :: ord'.map (fun k => (k, f k)))
            = (k1, upd (f k1) x) :: ord'.map (fun k => (k, f k)) from by
          simp [updateGroup]]
      rw [show addKey (k1 :: ord') k1 = k1 :: ord' from by simp [addKey]]
      rw [List.map_cons, if_pos rfl, if_pos (List.mem_cons_self k1 ord')]
      congr 1
      apply List.map_congr_left
      intro a ha
      have hne : a ≠ k1 := fun hEq => hk1 (hEq ▸ ha)
      rw [if_neg hne]
    · rw [show updateGroup upd init k0 x ((k1, f k1) :: ord'.map (fun k => (k, f k)))
            = (k1, f k1) :: updateGroup upd init k0 x (ord'.map (fun k => (k, f k))) from by
          simp [updateGroup, h]]
      rw [ih hnd']
      have hiff : (k0 ∈ k1 :: ord') ↔ (k0 ∈ ord') := by
        constructor
        · intro hc
          rcases List.mem_cons.mp hc with hEq | hm
          · exact absurd hEq.symm h
          · exact hm
        · exact fun hm => List.mem_cons_of_mem _ hm
      have haddKey : addKey (k1 :: ord') k0 = k1 :: addKey ord' k0 := by
        unfold addKey
        by_cases hmem : k0 ∈ ord'
        · rw [if_pos (hiff.mpr hmem), if_pos hmem]
        · rw [if_neg (fun hc => hmem (hiff.mp hc)), if_neg hmem]
          simp
      rw [haddKey, List.map_cons, if_neg h]
      congr 1
      apply List.map_congr_left
      intro a ha
      by_cases hEq : a = k0
      · subst hEq
        rw [if_pos rfl, if_pos rfl]
        by_cases hmem : a ∈ ord'
        · rw [if_pos (hiff.mpr hmem), if_pos hmem]
        · rw [if_neg (fun hc => hmem (hiff.mp hc)), if_neg hmem]
      · rw [if_neg hEq, if_neg hEq]

/-- Processing every key of one item on a canonical grouping Map:
keys of the item get the item folded into their group (a fresh group for
unseen keys), other groups are untouched. -/
theorem foldl_updateGroup_map {α β : Type} (upd : β → α → β) (init : β) (x : α) :
    ∀ (ks : List String), ks.Nodup → ∀ (ord : List String), ord.Nodup → ∀ (f : String → β),
    ks.foldl (fun m k => updateGroup upd init k x m) (ord.map (fun k => (k, f k)))
      = (ks.foldl addKey ord).map
          (fun k => (k, if k ∈ ks then (if k ∈ ord then upd (f k) x else upd init x)
            else f k)) := by
  intro ks
  induction ks with
  | nil =>
    intro _ ord _ f
    simp
  | cons k0 ks' ih =>
    intro hks ord hord f
    have hk0 : k0 ∉ ks' := (List.nodup_cons.mp hks).1
    have hks' : ks'.Nodup := (List.nodup_cons.mp hks).2
    rw [List.foldl_cons, List.foldl_cons]
    rw [updateGroup_map upd init x k0 ord f hord]
    rw [ih hks' (addKey ord k0) (addKey_nodup ord k0 hord) _]
    apply List.map_congr_left
    intro a ha
    by_cases haks' : a ∈ ks'
    · have hne : a ≠ k0 := fun hEq => hk0 (hEq ▸ haks')
      rw [if_pos haks', if_pos (List.mem_cons_of_mem _ haks'), if_neg hne]
      by_cases hmem : a ∈ ord
      · rw [if_pos ((mem_addKey ord k0 a).mpr (Or.inl hmem)), if_pos hmem]
      · rw [if_neg (fun hc => by
            rcases (mem_addKey ord k0 a).mp hc with hm | hEq
            · exact hmem hm
            · exact hne hEq), if_neg hmem]
    · by_cases hEq : a = k0
      · subst hEq
        rw [if_neg haks', if_pos (List.mem_cons_self _ _), if_pos rfl]
      · have hc : a ∉ k0 :: ks' := by
          intro hc
          rcases List.mem_cons.mp hc with hm | hm
          · exact hEq hm
          · exact haks' hm
        rw [if_neg haks', if_neg hEq, if_neg hc]

/-- The insertion-ordered grouping Map built by groupFold, in closed
form: one entry per first-seen key, holding the items carrying that key
folded in list order. -/
theorem groupFold_eq {α β : Type} (upd : β → α → β) (init : β) (keysOf : α → List String)
    (items : List α) :
    (∀ x ∈ items, (keysOf x).Nodup) →
    groupFold upd init keysOf items
      = (keyOrder keysOf items).map
          (fun k => (k, (items.filter (fun y => decide (k ∈ keysOf y))).foldl upd init)) := by
  induction items using List.reverseRecOn with
  | nil => intro _; rfl
  | append_singleton items x ih =>
    intro h
    have hx : (keysOf x).Nodup := h x (by simp)
    have hitems : ∀ y ∈ items, (keysOf y).Nodup := fun y hy => h y (by simp [hy])
    rw [show groupFold upd init keysOf (items ++ [x])
          = (keysOf x).foldl (fun m k => updateGroup upd init k x m)
              (groupFold upd init keysOf items) from by
        unfold groupFold
        rw [List.foldl_append, List.foldl_cons, List.foldl_nil]]
    rw [ih hitems]
    rw [foldl_updateGroup_map upd init x (keysOf x) hx (keyOrder keysOf items)
      (keyOrder_nodup _ _) _]
    rw [keyOrder_append]
    apply List.map_congr_left
    intro k hk
    have hfilter : (items ++ [x]).filter (fun y => decide (k ∈ keysOf y))
        = items.filter (fun y => decide (k ∈ keysOf y))
          ++ (if k ∈ keysOf x then [x] else []) := by
      rw [List.filter_append]
      congr 1
      by_cases hkx : k ∈ keysOf x <;> simp [hkx]
    rw [hfilter]
    by_cases hkx : k ∈ keysOf x
    · rw [if_pos hkx, if_pos hkx, List.foldl_append]
      simp only [List.foldl_cons, List.foldl_nil]
      by_cases hmem : k ∈ keyOrder keysOf items
      · rw [if_pos hmem]
      · rw [if_neg hmem]
        have hnil : items.filter (fun y => decide (k ∈ keysOf y)) = [] := by
          rw [List.filter_eq_nil_iff]
          intro y hy hky
          simp only [decide_eq_true_eq] at hky
          exact hmem ((mem_keyOrder keysOf items k).mpr ⟨y, hy, hky⟩)
        rw [hnil]
        rfl
    · rw [if_neg hkx, if_neg hkx]
      simp

/-- Folding list append over items collects them in order. -/
theorem foldl_append_singleton {α : Type} (l : List α) (acc : List α) :
    l.foldl (fun a n => a ++ [n]) acc = acc ++ l := by
  induction l generalizing acc with
  | nil => simp
  | cons x l ih => simp [ih]

/-- C9: identifyClusters emits, in order, one type-based cluster for
every first-seen category tag carried by more than one node — whose
members are exactly the ids of the nodes with that tag — followed by
one capability-based cluster for every first-seen capability tag
declared by more than one node, whose members are exactly the ids of the
declaring nodes; no cluster ever has fewer than two members, and the
key orders range exactly over the tags present on some node. -/
theorem identifyClusters_spec (nodes : List GraphNode) (edges : List GraphEdge)
    (hcaps : ∀ n ∈ nodes, n.capabilities.Nodup) :
    (identifyClusters nodes edges
      = (keyOrder (fun n => [n.type]) nodes).filterMap (fun t =>
          if 1 < (nodes.filter (fun n => decide (t = n.type))).length then
            some { id := "cluster-" ++ t
                   name := capitalize t ++ " APIs"
                   type := "type-based"
                   members := (nodes.filter (fun n => decide (t = n.type))).map GraphNode.id
                   description := "APIs of type: " ++ t }
          else none)
        ++ (keyOrder GraphNode.capabilities nodes).filterMap (fun cap =>
          if 1 < (nodes.filter (fun n => decide (cap ∈ n.capabilities))).length then
            some { id := "cluster-capability-" ++ cap
                   name := cap ++ " Providers"
                   type := "capability-based"
                   members := (nodes.filter (fun n => decide (cap ∈ n.capabilities))).map
                     GraphNode.id
                   description := "APIs providing " ++ cap ++ " capability" }
          else none))
    ∧ (∀ c ∈ identifyClusters nodes edges, 2 ≤ c.members.length)
    ∧ (∀ t, t ∈ keyOrder (fun n => [n.type]) nodes ↔ ∃ n ∈ nodes, t = n.type)
    ∧ (∀ cap, cap ∈ keyOrder GraphNode.capabilities nodes
        ↔ ∃ n ∈ nodes, cap ∈ n.capabilities) := by
  have htypes : ∀ n ∈ nodes, (((fun n : GraphNode => [n.type])) n).Nodup :=
    fun n _ => List.nodup_singleton _
  have hmain : identifyClusters nodes edges
      = (keyOrder (fun n => [n.type]) nodes).filterMap (fun t =>
          if 1 < (nodes.filter (fun n => decide (t = n.type))).length then
            some { id := "cluster-" ++ t
                   name := capitalize t ++ " APIs"
                   type := "type-based"
                   members := (nodes.filter (fun n => decide (t = n.type))).map GraphNode.id
                   description := "APIs of type: " ++ t }
          else none)
        ++ (keyOrder GraphNode.capabilities nodes).filterMap (fun cap =>
          if 1 < (nodes.filter (fun n => decide (cap ∈ n.capabilities))).length then
            some { id := "cluster-capability-" ++ cap
                   name := cap ++ " Providers"
                   type := "capability-based"
                   members := (nodes.filter (fun n => decide (cap ∈ n.capabilities))).map
                     GraphNode.id
                   description := "APIs providing " ++ cap ++ " capability" }
          else none) := by
    unfold identifyClusters
    rw [groupFold_eq (fun l n => l ++ [n]) [] (fun n => [n.type]) nodes htypes]
    rw [groupFold_eq (fun l n => l ++ [n]) [] GraphNode.capabilities nodes hcaps]
    simp only [List.filterMap_map]
    congr 1
    · apply List.filterMap_congr
      intro t ht
      have hpred : nodes.filter (fun y => decide (t ∈ [y.type]))
          = nodes.filter (fun y => decide (t = y.type)) := by
        have hfn : (fun y : GraphNode => decide (t ∈ [y.type]))
            = fun y : GraphNode => decide (t = y.type) :=
          funext fun y => decide_eq_decide.mpr (by simp)
        rw [hfn]
      simp only [Function.comp]
      rw [foldl_append_singleton, List.nil_append, hpred]
    · apply List.filterMap_congr
      intro cap hcap
      simp only [Function.comp]
      rw [foldl_append_singleton, List.nil_append]
  refine ⟨hmain, ?_, ?_, ?_⟩
  · intro c hc
    rw [hmain] at hc
    rcases List.mem_append.mp hc with hmem | hmem
    · rcases List.mem_filterMap.mp hmem with ⟨t, _, hsome⟩
      split_ifs at hsome with hlen
      · cases hsome
        rw [List.length_map]
        omega
    · rcases List.mem_filterMap.mp hmem with ⟨t, _, hsome⟩
      split_ifs at hsome with hlen
      · cases hsome
        rw [List.length_map]
        omega
  · intro t
    rw [mem_keyOrder]
    simp
  · intro cap
    rw [mem_keyOrder]

/-- Witness for identifyClusters_spec: the concrete type cluster emitted
for two ai nodes has at least two members. -/
theorem identifyClusters_spec_witness :
    2 ≤ (Cluster.mk "cluster-ai" "Ai APIs" "type-based" ["a", "b"]
      "APIs of type: ai").members.length :=
  (identifyClusters_spec [c9n1, c9n2] [] (by decide)).2.1
    ⟨"cluster-ai", "Ai APIs", "type-based", ["a", "b"], "APIs of type: ai"⟩ (by decide)

/-- Membership in addUnique. -/
theorem mem_addUnique (l : List String) (x a : String) :
    a ∈ addUnique l x ↔ a ∈ l ∨ a = x := by
  unfold addUnique
  split_ifs with h
  · rw [List.elem_iff] at h
    constructor
    · exact fun ha => Or.inl ha
    · rintro (ha | rfl)
      · exact ha
      · exact h
  · simp

/-- addUnique preserves distinctness. -/
theorem addUnique_nodup (l : List String) (x : String) (h : l.Nodup) :
    (addUnique l x).Nodup := by
  unfold addUnique
  split_ifs with hx
  · exact h
  · rw [show (l.contains x = true) = (x ∈ l) from propext List.elem_iff] at hx
    simpa [List.nodup_append, hx] using h

/-- Membership after folding both pair endpoints over records. -/
theorem mem_foldl_addPair (l : List SemanticSimilarity) (acc : List String) (a : String) :
    a ∈ l.foldl (fun m s => addUnique (addUnique m s.api1) s.api2) acc
      ↔ a ∈ acc ∨ ∃ s ∈ l, a = s.api1 ∨ a = s.api2 := by
  induction l generalizing acc with
  | nil => simp
  | cons s l ih =>
    rw [List.foldl_cons, ih, mem_addUnique, mem_addUnique]
    simp [or_assoc]

/-- Folding both pair endpoints preserves distinctness. -/
theorem foldl_addPair_nodup (l : List SemanticSimilarity) (acc : List String)
    (h : acc.Nodup) :
    (l.foldl (fun m s => addUnique (addUnique m s.api1) s.api2) acc).Nodup := by
  induction l generalizing acc with
  | nil => exact h
  | cons s l ih => exact ih _ (addUnique_nodup _ _ (addUnique_nodup _ _ h))

/-- The participant list of a capability is duplicate-free. -/
theorem participantsOf_nodup (cap : String) (sims : List SemanticSimilarity) :
    (participantsOf cap sims).Nodup :=
  foldl_addPair_nodup _ _ List.nodup_nil

/-- The participant list of a capability holds exactly the endpoints of
the records sharing that capability. -/
theorem mem_participantsOf (cap : String) (sims : List SemanticSimilarity) (a : String) :
    a ∈ participantsOf cap sims
      ↔ ∃ s ∈ sims, cap ∈ s.sharedCapabilities ∧ (a = s.api1 ∨ a = s.api2) := by
  unfold participantsOf
  rw [mem_foldl_addPair]
  simp only [List.not_mem_nil, false_or, List.mem_filter, decide_eq_true_eq]
  constructor
  · rintro ⟨s, ⟨hs, hcap⟩, hends⟩
    exact ⟨s, hs, hcap, hends⟩
  · rintro ⟨s, hs, hcap, hends⟩
    exact ⟨s, ⟨hs, hcap⟩, hends⟩

/-- C7: the recommendation list is exactly the high-similarity
recommendations (one per record with score strictly above 0.8, in record
order, priority high, naming both ids) followed by the
capability-cluster recommendations (one per first-seen shared
capability whose distinct-participant list exceeds two members, priority
medium, listing all participants) — concatenated as-is: no cross-class
deduplication and no priority re-sort. -/
theorem generateRecommendations_spec (sims : List SemanticSimilarity)
    (h : ∀ s ∈ sims, s.sharedCapabilities.Nodup) :
    (generateRecommendations sims
      = (sims.filter (fun s => decide ((0.8 : ℝ) < s.similarity))).map mkHighRecommendation
        ++ (keyOrder (fun s => s.sharedCapabilities) sims).filterMap (fun cap =>
            if 2 < (participantsOf cap sims).length then
              some (mkCapabilityRecommendation cap (participantsOf cap sims))
            else none))
    ∧ (∀ cap, cap ∈ keyOrder (fun s => s.sharedCapabilities) sims
        ↔ ∃ s ∈ sims, cap ∈ s.sharedCapabilities)
    ∧ (∀ cap, (participantsOf cap sims).Nodup)
    ∧ (∀ cap a, a ∈ participantsOf cap sims
        ↔ ∃ s ∈ sims, cap ∈ s.sharedCapabilities ∧ (a = s.api1 ∨ a = s.api2))
    ∧ (∀ s, (mkHighRecommendation s).priority = "high"
        ∧ (mkHighRecommendation s).type = "high-similarity"
        ∧ (mkHighRecommendation s).affectedAPIs = [s.api1, s.api2])
    ∧ (∀ cap ps, (mkCapabilityRecommendation cap ps).priority = "medium"
        ∧ (mkCapabilityRecommendation cap ps).type = "capability-cluster"
        ∧ (mkCapabilityRecommendation cap ps).affectedAPIs = ps) := by
  refine ⟨?_, fun cap => mem_keyOrder _ _ _, fun cap => participantsOf_nodup cap sims,
    fun cap a => mem_participantsOf cap sims a,
    fun s => ⟨rfl, rfl, rfl⟩, fun cap ps => ⟨rfl, rfl, rfl⟩⟩
  unfold generateRecommendations
  rw [groupFold_eq (fun m s => addUnique (addUnique m s.api1) s.api2) []
    (fun s => s.sharedCapabilities) sims h]
  simp only [List.filterMap_map]
  rfl

/-- Witness for generateRecommendations_spec: on two concrete records
capability x is seen by the cluster rule exactly because some record
shares it. -/
theorem generateRecommendations_spec_witness :
    ("x" ∈ keyOrder (fun s => s.sharedCapabilities) [c7s1, c7s2])
      ↔ ∃ s ∈ [c7s1, c7s2], "x" ∈ s.sharedCapabilities :=
  (generateRecommendations_spec [c7s1, c7s2] (by
    intro s hs
    rcases List.mem_cons.mp hs with rfl | hs
    · decide
    · rcases List.mem_cons.mp hs with rfl | hs
      · decide
      · cases hs)).2.1 "x"

/-- Both members of an ordered pair come from the underlying list. -/
theorem mem_orderedPairs {α : Type} (l : List α) (p : α × α) (hp : p ∈ orderedPairs l) :
    p.1 ∈ l ∧ p.2 ∈ l := by
  induction l with
  | nil => cases hp
  | cons x xs ih =>
    rw [show orderedPairs (x :: xs) = xs.map (fun y => (x, y)) ++ orderedPairs xs from rfl] at hp
    rcases List.mem_append.mp hp with hm | hm
    · rcases List.mem_map.mp hm with ⟨y, hy, rfl⟩
      exact ⟨by simp, by simp [hy]⟩
    · have hih := ih hm
      exact ⟨by simp [hih.1], by simp [hih.2]⟩

/-- A pairwise relation on the list holds on every ordered pair. -/
theorem orderedPairs_pairwise {α : Type} (R : α → α → Prop) (l : List α)
    (h : l.Pairwise R) : ∀ p ∈ orderedPairs l, R p.1 p.2 := by
  induction l with
  | nil => intro p hp; cases hp
  | cons x xs ih =>
    intro p hp
    rw [show orderedPairs (x :: xs) = xs.map (fun y => (x, y)) ++ orderedPairs xs from rfl] at hp
    rcases List.mem_append.mp hp with hm | hm
    · rcases List.mem_map.mp hm with ⟨y, hy, rfl⟩
      exact (List.pairwise_cons.mp h).1 y hy
    · exact ih (List.pairwise_cons.mp h).2 p hm

/-- Every triple produced by a successful similarity pass comes from an
input pair together with its successfully computed similarity. -/
theorem simTriples_ok_mem (l : List (APIEmbedding × APIEmbedding))
    (out : List (APIEmbedding × APIEmbedding × ℝ)) (hok : simTriples l = .ok out) :
    ∀ t ∈ out, (t.1, t.2.1) ∈ l
      ∧ calculateSimilarity t.1.embedding t.2.1.embedding = .ok t.2.2 := by
  induction l generalizing out with
  | nil =>
    cases hok
    intro t ht
    cases ht
  | cons p rest ih =>
    rw [show simTriples (p :: rest)
          = match calculateSimilarity p.1.embedding p.2.embedding with
            | .error e => .error e
            | .ok s =>
              match simTriples rest with
              | .error e => .error e
              | .ok tail => .ok ((p.1, p.2, s) :: tail) from rfl] at hok
    cases hsim : calculateSimilarity p.1.embedding p.2.embedding with
    | error e => rw [hsim] at hok; cases hok
    | ok s =>
      rw [hsim] at hok
      cases hrest : simTriples rest with
      | error e => rw [hrest] at hok; cases hok
      | ok tail =>
        rw [hrest] at hok
        cases hok
        intro t ht
        rcases List.mem_cons.mp ht with rfl | ht
        · exact ⟨List.mem_cons_self _ _, hsim⟩
        · have hih := ih tail hrest t ht
          exact ⟨List.mem_cons_of_mem _ hih.1, hih.2⟩

/-- The dot product accumulation is symmetric in its two vectors. -/
theorem dotProduct_comm (a b : List ℝ) : dotProduct a b = dotProduct b a := by
  unfold dotProduct
  suffices h : ∀ (b : List ℝ) (c : ℝ),
      (a.zip b).foldl (fun acc p => acc + p.1 * p.2) c
        = (b.zip a).foldl (fun acc p => acc + p.1 * p.2) c from h b 0
  induction a with
  | nil => intro b c; cases b <;> simp
  | cons x as ih =>
    intro b c
    cases b with
    | nil => simp
    | cons y bs =>
      simp only [List.zip_cons_cons, List.foldl_cons]
      rw [mul_comm]
      exact ih bs _

/-- Cosine similarity is symmetric. -/
theorem calculateSimilarity_symm (a b : List ℝ) :
    calculateSimilarity a b = calculateSimilarity b a := by
  simp only [calculateSimilarity]
  by_cases hlen : a.length = b.length
  · rw [if_neg (not_not_intro hlen), if_neg (not_not_intro hlen.symm)]
    by_cases hz : Real.sqrt (sumSquares a) = 0 ∨ Real.sqrt (sumSquares b) = 0
    · rw [if_pos hz, if_pos hz.symm]
    · rw [if_neg hz, if_neg (fun hc => hz hc.symm), dotProduct_comm, mul_comm]
  · rw [if_pos hlen, if_pos (fun hc => hlen hc.symm)]

/-- C5: in a successfully built graph, every edge joins two distinct
nodes both present in the node set, has weight strictly above 0.3, and
that weight is the successfully computed similarity of the two distinct
input embeddings it connects (evaluated over pairs in node-list order);
similarity itself is symmetric, so the unordered edge content does not
depend on that evaluation order. -/
theorem createSemanticGraph_edges_spec (embeddings : List APIEmbedding)
    (generatedAt : String) (g : SemanticGraph)
    (hok : createSemanticGraph embeddings generatedAt = .ok g)
    (hids : embeddings.Pairwise (fun x y => x.apiId ≠ y.apiId)) :
    (∀ e ∈ g.edges, e.fromId ≠ e.toId
      ∧ e.fromId ∈ g.nodes.map GraphNode.id
      ∧ e.toId ∈ g.nodes.map GraphNode.id
      ∧ (0.3 : ℝ) < e.weight
      ∧ ∃ ea ∈ embeddings, ∃ eb ∈ embeddings, e.fromId = ea.apiId ∧ e.toId = eb.apiId
          ∧ calculateSimilarity ea.embedding eb.embedding = .ok e.weight)
    ∧ (∀ v w : List ℝ, calculateSimilarity v w = calculateSimilarity w v) := by
  refine ⟨?_, calculateSimilarity_symm⟩
  unfold createSemanticGraph at hok
  cases hps : pairSimilarities embeddings with
  | error err => rw [hps] at hok; cases hok
  | ok trips =>
    rw [hps] at hok
    cases hok
    intro e he
    have hmem : e ∈ mkEdges trips := he
    rcases List.mem_filterMap.mp hmem with ⟨t, htmem, hsome⟩
    split_ifs at hsome with hw
    cases hsome
    have htp := simTriples_ok_mem (orderedPairs embeddings) trips hps t htmem
    have hpair := mem_orderedPairs embeddings (t.1, t.2.1) htp.1
    have hne : t.1.apiId ≠ t.2.1.apiId :=
      orderedPairs_pairwise (fun x y => x.apiId ≠ y.apiId) embeddings hids (t.1, t.2.1) htp.1
    refine ⟨hne, ?_, ?_, hw, t.1, hpair.1, t.2.1, hpair.2, rfl, rfl, htp.2⟩
    · have : (embeddings.map (fun e => GraphNode.mk e.apiId e.metadata.name e.metadata.type
          e.metadata.capabilities e.metadata.description)).map GraphNode.id
            = embeddings.map (fun e => e.apiId) := by
        rw [List.map_map]
        rfl
      rw [show (List.map (fun e => GraphNode.mk e.apiId e.metadata.name e.metadata.type
          e.metadata.capabilities e.metadata.description) embeddings) = _ from rfl]
      rw [this]
      exact List.mem_map.mpr ⟨t.1, hpair.1, rfl⟩
    · have : (embeddings.map (fun e => GraphNode.mk e.apiId e.metadata.name e.metadata.type
          e.metadata.capabilities e.metadata.description)).map GraphNode.id
            = embeddings.map (fun e => e.apiId) := by
        rw [List.map_map]
        rfl
      rw [show (List.map (fun e => GraphNode.mk e.apiId e.metadata.name e.metadata.type
          e.metadata.capabilities e.metadata.description) embeddings) = _ from rfl]
      rw [this]
      exact List.mem_map.mpr ⟨t.2.1, hpair.2, rfl⟩

/-- Evaluation of the graph builder on the two concrete unit-vector
embeddings. -/
theorem createSemanticGraph_eval : createSemanticGraph [c5e1, c5e2] "t" = .ok c5g := by
  have hsim : calculateSimilarity c5e1.embedding c5e2.embedding = .ok 1 := by
    show calculateSimilarity [(1 : ℝ)] [(1 : ℝ)] = .ok 1
    norm_num [calculateSimilarity, dotProduct, sumSquares, Real.sqrt_one]
  have hps : pairSimilarities [c5e1, c5e2] = .ok [(c5e1, c5e2, 1)] := by
    unfold pairSimilarities
    rw [show orderedPairs [c5e1, c5e2] = [(c5e1, c5e2)] from rfl]
    rw [show simTriples [(c5e1, c5e2)]
          = match calculateSimilarity c5e1.embedding c5e2.embedding with
            | .error e => .error e
            | .ok s =>
              match simTriples [] with
              | .error e => .error e
              | .ok tail => .ok ((c5e1, c5e2, s) :: tail) from rfl]
    rw [hsim]
    rfl
  have hedges : mkEdges [(c5e1, c5e2, 1)] = [⟨"a", "b", 1, "same-type", []⟩] := by
    unfold mkEdges
    simp only [List.filterMap_cons, List.filterMap_nil]
    rw [if_pos (show (0.3 : ℝ) < 1 by norm_num)]
    rfl
  have hsims : mkSimilarities [(c5e1, c5e2, 1)] = [⟨"a", "b", 1, []⟩] := by
    unfold mkSimilarities
    simp only [List.filterMap_cons, List.filterMap_nil]
    rw [if_pos (show (0.3 : ℝ) < 1 by norm_num)]
    rfl
  have hrecs : generateRecommendations [⟨"a", "b", 1, []⟩]
      = [⟨"high-similarity", "high", "Strong Semantic Match Found",
          "APIs a and b have high semantic similarity",
          "Consider creating a workflow that combines these APIs", ["a", "b"]⟩] := by
    unfold generateRecommendations
    have hdec : decide ((0.8 : ℝ) < (1 : ℝ)) = true := decide_eq_true (by norm_num)
    rw [show (List.filter (fun s => decide ((0.8 : ℝ) < s.similarity))
          [(⟨"a", "b", 1, []⟩ : SemanticSimilarity)])
        = List.filter (fun _ => decide ((0.8 : ℝ) < (1 : ℝ)))
          [(⟨"a", "b", 1, []⟩ : SemanticSimilarity)] from rfl]
    rw [show (List.filter (fun _ => decide ((0.8 : ℝ) < (1 : ℝ)))
          [(⟨"a", "b", 1, []⟩ : SemanticSimilarity)])
        = if decide ((0.8 : ℝ) < (1 : ℝ)) = true
          then [(⟨"a", "b", 1, []⟩ : SemanticSimilarity)] else [] from by
      simp [List.filter_cons]]
    rw [if_pos hdec]
    rfl
  unfold createSemanticGraph
  simp only [hps]
  rw [hedges, hsims, hrecs]
  rfl

/-- Witness for createSemanticGraph_edges_spec at the two concrete
embeddings: the single edge of the built graph joins the two distinct
registered nodes with weight 1 above the threshold. -/
theorem createSemanticGraph_edges_spec_witness :
    ("a" : String) ≠ "b"
    ∧ ("a" : String) ∈ c5g.nodes.map GraphNode.id
    ∧ ("b" : String) ∈ c5g.nodes.map GraphNode.id
    ∧ (0.3 : ℝ) < (1 : ℝ)
    ∧ ∃ ea ∈ [c5e1, c5e2], ∃ eb ∈ [c5e1, c5e2],
        ("a" : String) = ea.apiId ∧ ("b" : String) = eb.apiId
        ∧ calculateSimilarity ea.embedding eb.embedding = .ok (1 : ℝ) := by
  have hids : ([c5e1, c5e2] : List APIEmbedding).Pairwise (fun x y => x.apiId ≠ y.apiId) :=
    List.Pairwise.cons
      (fun y hy => by
        obtain rfl := List.mem_singleton.mp hy
        decide)
      (List.Pairwise.cons (fun y hy => absurd hy (List.not_mem_nil y)) List.Pairwise.nil)
  exact (createSemanticGraph_edges_spec [c5e1, c5e2] "t" c5g createSemanticGraph_eval
    hids).1 ⟨"a", "b", 1, "same-type", []⟩ (List.mem_singleton.mpr rfl)

/-- Every record kept by the findSimilarAPIs loop pairs the target with a
different cached id, reaches the threshold (inclusively), carries the
successfully computed similarity, and carries the capability
intersection. -/
theorem similarCandidates_ok_mem (target : APIEmbedding) (tid : String) (threshold : ℝ) :
    ∀ (l : List (String × APIEmbedding)) (recs : List SemanticSimilarity),
    similarCandidates target tid threshold l = .ok recs →
    ∀ r ∈ recs, r.api1 = tid ∧ r.api2 ≠ tid ∧ threshold ≤ r.similarity
      ∧ ∃ k emb, (k, emb) ∈ l ∧ r.api2 = k
          ∧ calculateSimilarity target.embedding emb.embedding = .ok r.similarity
          ∧ r.sharedCapabilities
              = target.metadata.capabilities.filter
                  (fun cap => emb.metadata.capabilities.contains cap) := by
  intro l
  induction l with
  | nil =>
    intro recs hok r hr
    cases hok
    cases hr
  | cons p rest ih =>
    obtain ⟨k, emb⟩ := p
    intro recs hok r hr
    rw [show similarCandidates target tid threshold ((k, emb) :: rest)
          = if k = tid then similarCandidates target tid threshold rest
            else
              match calculateSimilarity target.embedding emb.embedding with
              | .error e => .error e
              | .ok sim =>
                match similarCandidates target tid threshold rest with
                | .error e => .error e
                | .ok tail =>
                  if threshold ≤ sim then
                    .ok ({ api1 := tid
                           api2 := k
                           similarity := sim
                           sharedCapabilities := target.metadata.capabilities.filter
                             (fun cap => emb.metadata.capabilities.contains cap) } :: tail)
                  else .ok tail from rfl] at hok
    split_ifs at hok with hk
    · obtain ⟨h1, h2, h3, k', emb', hmem, h4, h5, h6⟩ := ih recs hok r hr
      exact ⟨h1, h2, h3, k', emb', List.mem_cons_of_mem _ hmem, h4, h5, h6⟩
    · cases hsim : calculateSimilarity target.embedding emb.embedding with
      | error e =>
        simp only [hsim] at hok
        cases hok
      | ok sim =>
        simp only [hsim] at hok
        cases hrest : similarCandidates target tid threshold rest with
        | error e =>
          simp only [hrest] at hok
          cases hok
        | ok tail =>
          simp only [hrest] at hok
          split_ifs at hok with hth
          · cases hok
            rcases List.mem_cons.mp hr with rfl | hr
            · exact ⟨rfl, hk, hth, k, emb, List.mem_cons_self _ _, rfl, hsim, rfl⟩
            · obtain ⟨h1, h2, h3, k', emb', hmem, h4, h5, h6⟩ := ih _ hrest r hr
              exact ⟨h1, h2, h3, k', emb', List.mem_cons_of_mem _ hmem, h4, h5, h6⟩
          · cases hok
            obtain ⟨h1, h2, h3, k', emb', hmem, h4, h5, h6⟩ := ih _ hrest r hr
            exact ⟨h1, h2, h3, k', emb', List.mem_cons_of_mem _ hmem, h4, h5, h6⟩

/-- C10: findSimilarAPIs returns the empty list when the target id is
not cached; otherwise the result is sorted by descending similarity and
every record pairs the target with a different cached id, has similarity
at least the threshold (inclusive), carries the successfully computed
similarity of the two cached vectors, and carries the intersection of
the two capability lists. -/
theorem findSimilarAPIs_spec (cache : List (String × APIEmbedding)) (targetApiId : String)
    (threshold : ℝ) :
    (getAssoc targetApiId cache = none →
      findSimilarAPIs cache targetApiId threshold = .ok [])
    ∧ (∀ target recs, getAssoc targetApiId cache = some target →
        findSimilarAPIs cache targetApiId threshold = .ok recs →
        recs.Sorted (fun a b => b.similarity ≤ a.similarity)
        ∧ ∀ r ∈ recs, r.api1 = targetApiId ∧ r.api2 ≠ targetApiId
            ∧ threshold ≤ r.similarity
            ∧ ∃ k emb, (k, emb) ∈ cache ∧ r.api2 = k
                ∧ calculateSimilarity target.embedding emb.embedding = .ok r.similarity
                ∧ r.sharedCapabilities = target.metadata.capabilities.filter
                    (fun cap => emb.metadata.capabilities.contains cap)
                ∧ (∀ c, c ∈ r.sharedCapabilities
                    ↔ c ∈ target.metadata.capabilities ∧ c ∈ emb.metadata.capabilities)) := by
  constructor
  · intro h
    unfold findSimilarAPIs
    rw [h]
  · intro target recs htgt hok
    unfold findSimilarAPIs at hok
    simp only [htgt] at hok
    cases hcand : similarCandidates target targetApiId threshold cache with
    | error e =>
      simp only [hcand] at hok
      cases hok
    | ok base =>
      simp only [hcand, Except.ok.injEq] at hok
      subst hok
      constructor
      · exact List.sorted_insertionSort _ _
      · intro r hr
        have hr' : r ∈ List.insertionSort (fun a b => b.similarity ≤ a.similarity) base := hr
        have hrbase : r ∈ base :=
          (List.perm_insertionSort (fun a b => b.similarity ≤ a.similarity) base).mem_iff.mp hr'
        obtain ⟨h1, h2, h3, k, emb, hmem, h4, h5, h6⟩ :=
          similarCandidates_ok_mem target targetApiId threshold cache base hcand r hrbase
        refine ⟨h1, h2, h3, k, emb, hmem, h4, h5, h6, ?_⟩
        intro c
        rw [h6]
        simp [List.mem_filter, List.elem_iff]

/-- The findSimilarAPIs loop skips the cache entry keyed by the target
id. -/
theorem similarCandidates_skip (target : APIEmbedding) (tid : String) (th : ℝ)
    (emb : APIEmbedding) (rest : List (String × APIEmbedding)) :
    similarCandidates target tid th ((tid, emb) :: rest)
      = similarCandidates target tid th rest := by
  rw [show similarCandidates target tid th ((tid, emb) :: rest)
        = if tid = tid then similarCandidates target tid th rest
          else
            match calculateSimilarity target.embedding emb.embedding with
            | .error e => .error e
            | .ok sim =>
              match similarCandidates target tid th rest with
              | .error e => .error e
              | .ok tail =>
                if th ≤ sim then
                  .ok ({ api1 := tid
                         api2 := tid
                         similarity := sim
                         sharedCapabilities := target.metadata.capabilities.filter
                           (fun cap => emb.metadata.capabilities.contains cap) } :: tail)
                else .ok tail from rfl]
  rw [if_pos rfl]

/-- The findSimilarAPIs loop keeps an entry whose similarity reaches the
threshold. -/
theorem similarCandidates_keep (target : APIEmbedding) (tid : String) (th : ℝ)
    (k : String) (emb : APIEmbedding) (rest : List (String × APIEmbedding)) (sim : ℝ)
    (tail : List SemanticSimilarity) (hk : ¬ k = tid)
    (hsim : calculateSimilarity target.embedding emb.embedding = .ok sim)
    (hrest : similarCandidates target tid th rest = .ok tail)
    (hth : th ≤ sim) :
    similarCandidates target tid th ((k, emb) :: rest)
      = .ok ({ api1 := tid
               api2 := k
               similarity := sim
               sharedCapabilities := target.metadata.capabilities.filter
                 (fun cap => emb.metadata.capabilities.contains cap) } :: tail) := by
  rw [show similarCandidates target tid th ((k, emb) :: rest)
        = if k = tid then similarCandidates target tid th rest
          else
            match calculateSimilarity target.embedding emb.embedding with
            | .error e => .error e
            | .ok sim =>
              match similarCandidates target tid th rest with
              | .error e => .error e
              | .ok tail =>
                if th ≤ sim then
                  .ok ({ api1 := tid
                         api2 := k
                         similarity := sim
                         sharedCapabilities := target.metadata.capabilities.filter
                           (fun cap => emb.metadata.capabilities.contains cap) } :: tail)
                else .ok tail from rfl]
  rw [if_neg hk]
  simp only [hsim, hrest]
  rw [if_pos hth]

/-- Evaluation of findSimilarAPIs on the concrete cache at threshold 1:
the u record is kept (similarity exactly equal to the inclusive
threshold) with shared capability y. -/
theorem findSimilarAPIs_eval :
    findSimilarAPIs c10cache "t" 1 = .ok [⟨"t", "u", 1, ["y"]⟩] := by
  have hsim : calculateSimilarity c10t.embedding c10u.embedding = .ok 1 := by
    show calculateSimilarity [(1 : ℝ)] [(1 : ℝ)] = .ok 1
    norm_num [calculateSimilarity, dotProduct, sumSquares, Real.sqrt_one]
  have hcand : similarCandidates c10t "t" (1 : ℝ) c10cache = .ok [⟨"t", "u", 1, ["y"]⟩] := by
    rw [show c10cache = ("t", c10t) :: [("u", c10u)] from rfl]
    rw [similarCandidates_skip]
    rw [similarCandidates_keep c10t "t" 1 "u" c10u [] 1 [] (by decide) hsim rfl (le_refl 1)]
    rfl
  unfold findSimilarAPIs
  simp only [show getAssoc "t" c10cache = some c10t from rfl]
  simp only [hcand]
  rfl

/-- Witness for findSimilarAPIs_spec on the concrete cache: the single
returned record is sorted, pairs t with u, reaches the inclusive
threshold, and carries the capability intersection. -/
theorem findSimilarAPIs_spec_witness :
    ([(⟨"t", "u", 1, ["y"]⟩ : SemanticSimilarity)].Sorted
        (fun a b => b.similarity ≤ a.similarity))
    ∧ ∀ r ∈ [(⟨"t", "u", 1, ["y"]⟩ : SemanticSimilarity)], r.api1 = "t" ∧ r.api2 ≠ "t"
        ∧ (1 : ℝ) ≤ r.similarity
        ∧ ∃ k emb, (k, emb) ∈ c10cache ∧ r.api2 = k
            ∧ calculateSimilarity c10t.embedding emb.embedding = .ok r.similarity
            ∧ r.sharedCapabilities = c10t.metadata.capabilities.filter
                (fun cap => emb.metadata.capabilities.contains cap)
            ∧ (∀ c, c ∈ r.sharedCapabilities
                ↔ c ∈ c10t.metadata.capabilities ∧ c ∈ emb.metadata.capabilities) :=
  (findSimilarAPIs_spec c10cache "t" 1).2 c10t [⟨"t", "u", 1, ["y"]⟩] rfl findSimilarAPIs_eval
